import Mathlib

set_option maxRecDepth 4000

/-!
Shallow embedding of the Metadata Hider rule engine (src/main.ts) together with
theorems settling the frozen claims about its specification. Pure functions of
the source are translated to Lean functions; DOM element class state and the
installed stylesheet element list are made explicit; the JS RegExp engine is
modelled by an oracle parameter; JSON values handled by the import path are an
explicit inductive type.
-/

namespace MetadataHider

/-!
JS string primitives. The source manipulates JS strings with toLowerCase,
trim, split, replace, startsWith, endsWith. These are modelled by structural
functions on the character list of a Lean string so that every concrete
evaluation reduces inside the kernel. Lowercasing and whitespace follow the
ASCII behaviour of the JS operations; all strings handled by the claims are
ASCII.
-/

/-- JS toLowerCase, restricted to ASCII letters. -/
def jsToLower (s : String) : String :=
  String.mk (s.data.map Char.toLower)

/-- ASCII whitespace recognized by JS trim. -/
def jsIsSpace (c : Char) : Bool :=
  c == ' ' || c == '\t' || c == '\n' || c == '\r' || c == '\x0b' || c == '\x0c'

/-- JS trim: strip whitespace from both ends. -/
def jsTrim (s : String) : String :=
  String.mk (((s.data.dropWhile jsIsSpace).reverse.dropWhile jsIsSpace).reverse)

/-- Split of a character list at every occurrence of the separator. The empty
list yields one empty segment, matching JS split on a separator string. -/
def splitOnCharList (sep : Char) : List Char → List (List Char)
  | [] => [[]]
  | c :: cs =>
    let r := splitOnCharList sep cs
    if c == sep then [] :: r
    else
      match r with
      | [] => [[c]]
      | h :: t => (c :: h) :: t

/-- JS split with a one-character separator string. -/
def jsSplitOn (sep : Char) (s : String) : List String :=
  (splitOnCharList sep s.data).map String.mk

/-- JS global replace of one character by a replacement string. -/
def jsReplaceChar (target : Char) (rep : String) (s : String) : String :=
  String.mk (s.data.foldr (fun ch acc => (if ch == target then rep.data else [ch]) ++ acc) [])

/-- JS startsWith. -/
def jsStartsWith (s p : String) : Bool :=
  p.data.isPrefixOf s.data

/-- JS endsWith. -/
def jsEndsWith (s p : String) : Bool :=
  p.data.reverse.isPrefixOf s.data.reverse

/-- Hide targets of a rule (interface entryHideSettings, main.ts lines 5-10). -/
structure entryHideSettings where
  tableInactive : Bool
  tableActive : Bool
  fileProperties : Bool
  allProperties : Bool
  deriving DecidableEq

/-- Rule action. The source uses the string union of hide and show
(main.ts line 16). -/
inductive EntryAction where
  | hideAction
  | showAction
  deriving DecidableEq

/-- One configured rule (interface entrySettings, main.ts lines 11-19). -/
structure entrySettings where
  name : String
  isRegex : Bool
  folderFilter : String
  tagFilter : String
  action : EntryAction
  valueCondition : String
  hide : entryHideSettings
  deriving DecidableEq

/-- Global settings (interface MetadataHiderSettings, main.ts lines 20-27). -/
structure MetadataHiderSettings where
  autoFold : Bool
  hideEmptyEntry : Bool
  hideEmptyEntryInSideDock : Bool
  propertiesVisible : String
  propertyHideAll : String
  entries : List entrySettings
  deriving DecidableEq

/-- Document context for the active file: its vault path and its resolved tag
list. tags = none models a null metadata cache (getFileCache returning null in
isEntryApplicable); tags = some ts models getAllTags(cache) returning ts. -/
structure FileCtx where
  path : String
  tags : Option (List String)
  deriving DecidableEq

/-- Folder sub-check of isEntryApplicable (main.ts lines 42-46): normalize the
trimmed folder filter to end with a slash and require the file path to start
with it. Only consulted when the folder filter is non-empty. -/
def folderScopeOk (entry : entrySettings) (f : FileCtx) : Bool :=
  let folder0 := jsTrim entry.folderFilter
  let folder := if jsEndsWith folder0 "/" then folder0 else folder0 ++ "/"
  jsStartsWith f.path folder

/-- Tag sub-check of isEntryApplicable (main.ts lines 48-55): lowercase the
trimmed tag filter, normalize a leading hash, return false on a null cache,
else test case-insensitive membership in the file tag list. Only consulted
when the tag filter is non-empty. -/
def tagScopeOk (entry : entrySettings) (f : FileCtx) : Bool :=
  let targetTag := jsToLower (jsTrim entry.tagFilter)
  let normalizedTarget := if jsStartsWith targetTag "#" then targetTag else "#" ++ targetTag
  match f.tags with
  | none => false
  | some ts => (ts.map jsToLower).contains normalizedTarget

/-- Translation of isEntryApplicable (main.ts lines 38-58). Both scopes empty
gives true immediately; a missing file gives false once any scope is set; each
non-empty scope must then pass its sub-check (early returns in the source). -/
def isEntryApplicable (entry : entrySettings) (file : Option FileCtx) : Bool :=
  if jsTrim entry.folderFilter == "" && jsTrim entry.tagFilter == "" then true
  else
    match file with
    | none => false
    | some f =>
      if jsTrim entry.folderFilter != "" && !(folderScopeOk entry f) then false
      else if jsTrim entry.tagFilter != "" && !(tagScopeOk entry f) then false
      else true

/-- Regex oracle modelling the JS RegExp engine: for a pattern string it
returns none when the RegExp constructor throws (malformed pattern), otherwise
the compiled case-insensitive test predicate. -/
abbrev RegexOracle := String → Option (String → Bool)

/-- Translation of matchesEntryName (main.ts lines 60-70). The try/catch around
RegExp construction is modelled by the oracle returning none, in which case the
match fails closed (false) instead of propagating an exception. -/
def matchesEntryName (oracle : RegexOracle) (propertyKey : String) (entry : entrySettings) : Bool :=
  let normalizedKey := jsToLower propertyKey
  if entry.isRegex then
    match oracle entry.name with
    | none => false
    | some test => test normalizedKey
  else
    normalizedKey == jsToLower entry.name

/-- Raw frontmatter value before lowercasing, as the String conversion of the
source renders it: a scalar rendered to a string, or an array of rendered
scalars (main.ts lines 76-81). -/
inductive FmRaw where
  | scalar (s : String)
  | array (items : List String)
  deriving DecidableEq

/-- Lowercased frontmatter value as stored by buildFrontmatterLower. -/
inductive FmVal where
  | str (s : String)
  | list (items : List String)
  deriving DecidableEq

/-- Translation of buildFrontmatterLower (main.ts lines 73-84): lowercase every
key and every rendered value; array values stay arrays of lowercased strings. -/
def buildFrontmatterLower (frontmatter : Option (List (String × FmRaw))) : List (String × FmVal) :=
  match frontmatter with
  | none => []
  | some l =>
    l.map (fun p =>
      (jsToLower p.1,
        match p.2 with
        | FmRaw.scalar s => FmVal.str (jsToLower s)
        | FmRaw.array items => FmVal.list (items.map jsToLower)))

/-- Lookup in the lowercased frontmatter record. A JS object assignment lets a
later duplicate key overwrite an earlier one, so the last binding wins. -/
def fmLookup (m : List (String × FmVal)) (key : String) : Option FmVal :=
  (m.reverse.find? (fun p => p.1 == key)).map (fun p => p.2)

/-- Translation of matchesValueCondition (main.ts lines 91-117). propEl models
the DOM input lookup: some v means a live input or textarea with value v was
found under the property element, none means no element or no input (the two
cases behave identically in the source, both falling back to frontmatter). -/
def matchesValueCondition (entry : entrySettings) (key : String)
    (frontmatterLower : List (String × FmVal)) (propEl : Option String) : Bool :=
  let cond := jsTrim entry.valueCondition
  if cond == "" then true
  else
    let conditions := ((jsSplitOn ',' cond).map (fun v => jsToLower (jsTrim v))).filter (fun v => v != "")
    if conditions.length == 0 then true
    else
      match propEl with
      | some domVal => conditions.contains (jsTrim (jsToLower domVal))
      | none =>
        match fmLookup frontmatterLower key with
        | none => false
        | some (FmVal.list items) => items.any (fun v => conditions.contains v)
        | some (FmVal.str s) => conditions.contains s

/-- Full per-rule applicability test, the conjunction short-circuited by the
continue statements of both evaluation loops (main.ts lines 144-147 and
187-190): name match, scope applicability, value condition. -/
def entryMatches (oracle : RegexOracle) (entry : entrySettings) (key : String)
    (file : Option FileCtx) (fm : List (String × FmVal)) (propEl : Option String) : Bool :=
  matchesEntryName oracle key entry &&
    (isEntryApplicable entry file && matchesValueCondition entry key fm propEl)

/-- First-match-wins resolution: both loops iterate the rule list in order and
break on the first rule whose three predicates all hold, which is exactly the
first satisfying element of the list. -/
def firstMatch (oracle : RegexOracle) (entries : List entrySettings) (key : String)
    (file : Option FileCtx) (fm : List (String × FmVal)) (propEl : Option String) :
    Option entrySettings :=
  entries.find? (fun e => entryMatches oracle e key file fm propEl)

/-- Quick-exit test of applyConditionalHiding (main.ts line 172): at least one
rule uses regex or a non-empty value condition. -/
def hasDomEntriesB (entries : List entrySettings) : Bool :=
  entries.any (fun e => e.isRegex || jsTrim e.valueCondition != "")

/-- Live marker classes on a property element: presence of mh-hide and of
mh-show in its class list. -/
structure PropClasses where
  mhHide : Bool
  mhShow : Bool
  deriving DecidableEq

/-- Per-element effect of the applyConditionalHiding loop body (main.ts lines
183-213) on the class state of one property element. propEl is the live input
value visible to matchesValueCondition for this element. No full match leaves
the class state untouched; a first match that is a CSS-path rule (no regex, no
value condition) removes both markers; a show rule forces mh-show; a hide rule
toggles mh-hide from its targets and the surface flags and removes mh-show. -/
def applyCondStep (oracle : RegexOracle) (entries : List entrySettings) (key : String)
    (file : Option FileCtx) (fm : List (String × FmVal)) (propEl : Option String)
    (inFileProps isActive : Bool) (st : PropClasses) : PropClasses :=
  match firstMatch oracle entries key file fm propEl with
  | none => st
  | some entry =>
    if !entry.isRegex && jsTrim entry.valueCondition == "" then
      { mhHide := false, mhShow := false }
    else
      match entry.action with
      | EntryAction.showAction => { mhHide := false, mhShow := true }
      | EntryAction.hideAction =>
        let shouldHide :=
          if inFileProps then entry.hide.fileProperties
          else if entry.hide.tableActive then true
          else if entry.hide.tableInactive && !isActive then true
          else false
        { mhHide := shouldHide, mhShow := false }

set_option linter.unusedVariables false in
/-- Per-item effect of the hideInAllProperties loop body (main.ts lines
137-157). liveInput models the value of any in-progress edit control inside
the panel item; the source passes null as the fourth argument of
matchesValueCondition at this call site (line 147), so the parameter is never
consulted. An unmatched item has mh-hide removed; a matched item has mh-hide
toggled to (action is hide and the allProperties target is set). mh-show is
never touched in this panel. -/
def hideInAllPropsStep (oracle : RegexOracle) (entries : List entrySettings) (key : String)
    (file : Option FileCtx) (fm : List (String × FmVal)) (liveInput : Option String)
    (st : PropClasses) : PropClasses :=
  match firstMatch oracle entries key file fm none with
  | none => { st with mhHide := false }
  | some entry =>
    { st with mhHide := entry.action == EntryAction.hideAction && entry.hide.allProperties }

/-- The four hide-target toggles of one rule row in the settings tab. -/
inductive HideKey where
  | tableInactive
  | tableActive
  | fileProperties
  | allProperties
  deriving DecidableEq

/-- Translation of the hide-target toggle onChange handler of the settings tab
(main.ts lines 724-739): write the toggled flag, then clearing tableInactive
also clears tableActive, and setting tableActive also sets tableInactive. -/
def setHideTarget (h : entryHideSettings) (key : HideKey) (value : Bool) : entryHideSettings :=
  let h1 :=
    match key with
    | HideKey.tableInactive => { h with tableInactive := value }
    | HideKey.tableActive => { h with tableActive := value }
    | HideKey.fileProperties => { h with fileProperties := value }
    | HideKey.allProperties => { h with allProperties := value }
  let h2 :=
    if key == HideKey.tableInactive && value == false then { h1 with tableActive := false }
    else h1
  if key == HideKey.tableActive && value == true then { h2 with tableInactive := true }
  else h2

/-- The hide-target invariant: the table-active (always hide) flag implies the
table-inactive flag. -/
def hideInvariant (h : entryHideSettings) : Bool :=
  !h.tableActive || h.tableInactive

/-- Translation of escapeCSSAttrValue (main.ts lines 359-361): double every
backslash, then escape every double quote. -/
def escapeCSSAttrValue (value : String) : String :=
  jsReplaceChar '"' "\\\"" (jsReplaceChar '\\' "\\\\" value)

/-- Modelled from the spec: string2list from src/util is imported by main.ts
but its source file is not under src/. The spec describes the legacy
always-visible field list as a comma-separated string of field keys
(sections 6 and 8, Scenario D), so the model splits on commas, trims each
item, and drops empty items. -/
def string2list (s : String) : List String :=
  ((jsSplitOn ',' s).map jsTrim).filter (fun x => x != "")

/-- Translation of genCSS (main.ts lines 363-372). -/
def genCSS (properties : List String) (cssPre : String) (cssSuffix : String)
    (parentSelector : String) : String :=
  if properties.length == 0 then ""
  else
    let parent := if parentSelector != "" then parentSelector ++ " " else ""
    let body := properties.map (fun property =>
      parent ++ ".metadata-container > .metadata-content > .metadata-properties > .metadata-property[data-property-key=\"" ++
        escapeCSSAttrValue (jsToLower (jsTrim property)) ++ "\"]")
    cssPre ++ "\n" ++ String.intercalate ",\n" body ++ "\n" ++ cssSuffix ++ "\n\n"

/-- Translation of the propSel helper inside genAllCSS (main.ts lines 421-424). -/
def propSel (key : String) (parentSelector : String) : String :=
  let parent := if parentSelector != "" then parentSelector ++ " " else ""
  parent ++ ".metadata-container > .metadata-content > .metadata-properties > .metadata-property[data-property-key=\"" ++
    escapeCSSAttrValue key ++ "\"]"

/-- One iteration of the first-match-wins CSS loop of genAllCSS (main.ts lines
426-450), folding over (claimed keys, emitted content). Regex and
value-condition rules are skipped (live path), inapplicable rules are skipped,
and a key already claimed by a higher-priority rule is skipped. -/
def cssEntryStep (activeFile : Option FileCtx) (acc : List String × List String)
    (entry : entrySettings) : List String × List String :=
  let claimed := acc.1
  let content := acc.2
  if entry.isRegex || jsTrim entry.valueCondition != "" then acc
  else if !(isEntryApplicable entry activeFile) then acc
  else
    let key := jsToLower (jsTrim entry.name)
    if key == "" then acc
    else if claimed.contains key then acc
    else
      match entry.action with
      | EntryAction.showAction =>
        (key :: claimed,
          content ++
            ["/* show: " ++ key ++ " */",
             propSel key "" ++ " \x7b display: flex !important; \x7d"])
      | EntryAction.hideAction =>
        let c1 :=
          if entry.hide.fileProperties then
            [propSel key ".workspace-leaf-content[data-type=\"file-properties\"]" ++
              " \x7b display: none !important; \x7d"]
          else []
        let c2 :=
          if entry.hide.tableInactive || entry.hide.tableActive then
            [propSel key "" ++ " \x7b display: none; \x7d"]
          else []
        let c3 :=
          if entry.hide.tableActive then
            [propSel key ".workspace-split:not(.mod-sidedock)" ++
              " \x7b display: none !important; \x7d"]
          else []
        (key :: claimed, content ++ c1 ++ c2 ++ c3)

/-- Translation of genAllCSS (main.ts lines 379-460): base marker classes,
baseline empty-field rules, side-dock exemption, whole-table hide marker,
first-match-wins per-rule CSS, legacy always-visible list, joined by
newlines. -/
def genAllCSS (s : MetadataHiderSettings) (activeFile : Option FileCtx) : String :=
  let content1 : List String :=
    [".metadata-property.mh-hide \x7b display: none !important; \x7d",
     ".metadata-property.mh-show \x7b display: flex !important; \x7d"]
  let content2 : List String :=
    if s.hideEmptyEntry then
      content1 ++
        [".metadata-container.is-active .metadata-property \x7b display: flex !important; \x7d",
         ".metadata-container .metadata-property:has(.metadata-property-value .mod-truncate:empty),",
         ".metadata-container .metadata-property[data-property-type=\"number\"]:has(input.metadata-input:not([value]):not(:focus)),",
         ".metadata-container .metadata-property[data-property-type=\"text\"]:has(input[type=\"date\"]),",
         ".metadata-container .metadata-property:has(.metadata-property-value .multi-select-container > .multi-select-input:first-child),",
         ".metadata-container .metadata-property[data-property-type=\"checkbox\"]:has(input[type=\"checkbox\"]:not(:checked)) \x7b",
         "\tdisplay: none;",
         "\x7d"]
    else content1
  let content3 :=
    if !s.hideEmptyEntryInSideDock then
      content2 ++ [".mod-sidedock .metadata-property \x7b display: flex !important; \x7d"]
    else content2
  let content4 :=
    if jsTrim s.propertyHideAll != "" then
      content3 ++
        [String.intercalate "\n"
          [".metadata-container:has(.metadata-property[data-property-key=\"" ++
             escapeCSSAttrValue (jsToLower (jsTrim s.propertyHideAll)) ++
             "\"] input[type=\"checkbox\"]:checked) \x7b",
           "  display: none;",
           "\x7d",
           ""]]
    else content3
  let folded := s.entries.foldl (cssEntryStep activeFile) ([], content4)
  let content5 :=
    folded.2 ++
      [genCSS (string2list s.propertiesVisible) "/* * Always visible */"
        " \x7b display: flex; \x7d" ""]
  String.intercalate "\n" content5 ++ "\n"

/-- One style element in the document head: an identity (uid), its id
attribute, and its text content. -/
structure StyleEl where
  uid : Nat
  id : String
  content : String
  deriving DecidableEq

/-- The id attribute used by the plugin for its style fragment
(main.ts line 301). -/
def styleId : String := "css-metadata-hider"

/-- Removal of the first element carrying the plugin style id, as performed by
querySelector plus removeChild in updateCSS (main.ts lines 303-307). -/
def removeFirstById : List StyleEl → List StyleEl
  | [] => []
  | t :: ts => if t.id == styleId then ts else t :: removeFirstById ts

/-- Removal of a specific element (by identity) from the head, as performed by
parentElement.removeChild in onunload; a uid not present leaves the head
unchanged (the element had no parent). -/
def removeByUid (uid : Nat) : List StyleEl → List StyleEl
  | [] => []
  | t :: ts => if t.uid == uid then ts else t :: removeByUid uid ts

/-- Head-state effect of updateCSS (main.ts lines 299-310): remove any existing
element with the plugin style id, then append a fresh element carrying the
output of genAllCSS for the current settings and active file. uid is the
identity of the freshly created element. -/
def updateCSSHead (s : MetadataHiderSettings) (f : Option FileCtx) (uid : Nat)
    (head : List StyleEl) : List StyleEl :=
  removeFirstById head ++ [{ uid := uid, id := styleId, content := genAllCSS s f }]

/-- Head-state effect of onunload (main.ts lines 295-297): remove the element
the plugin last created, guarded by optional chaining, so with no recorded
element (styleTag = none) or a detached element the head is unchanged. -/
def onunloadHead (styleTag : Option Nat) (head : List StyleEl) : List StyleEl :=
  match styleTag with
  | none => head
  | some uid => removeByUid uid head

/-- Number of installed fragments carrying the plugin style id. -/
def countId (head : List StyleEl) : Nat :=
  (head.filter (fun t => t.id == styleId)).length

/-- Content of the first installed fragment carrying the plugin style id. -/
def installedCSS (head : List StyleEl) : Option String :=
  (head.find? (fun t => t.id == styleId)).map (fun t => t.content)

/-- JSON values as produced by JSON.parse in the import handler. -/
inductive JsonV where
  | null
  | bool (b : Bool)
  | num (n : Int)
  | str (s : String)
  | arr (elems : List JsonV)
  | obj (fields : List (String × JsonV))

/-- Write one key of a JS object: an existing key keeps its position and gets
the new value, a new key is appended. -/
def setKey (fs : List (String × JsonV)) (k : String) (v : JsonV) : List (String × JsonV) :=
  if fs.any (fun p => p.1 == k) then
    fs.map (fun p => if p.1 == k then (k, v) else p)
  else fs ++ [(k, v)]

/-- Object.assign between two plain JSON objects: copy every source field into
the target in order. -/
def objAssignFields (target : List (String × JsonV)) (fields : List (String × JsonV)) :
    List (String × JsonV) :=
  fields.foldl (fun acc p => setKey acc p.1 p.2) target

/-- In-memory settings object as seen by the import handler. Fields hold raw
JSON values because Object.assign writes whatever the imported object carries
into them, including ill-typed values such as a non-array entries field.
Unknown imported keys are dropped by this model; they play no part in any
behaviour verified here. -/
structure RawSettings where
  autoFold : JsonV
  hideEmptyEntry : JsonV
  hideEmptyEntryInSideDock : JsonV
  propertiesVisible : JsonV
  propertyHideAll : JsonV
  entries : JsonV

/-- Object.assign of one imported field onto the settings object. -/
def assignField (s : RawSettings) (k : String) (v : JsonV) : RawSettings :=
  if k == "autoFold" then { s with autoFold := v }
  else if k == "hideEmptyEntry" then { s with hideEmptyEntry := v }
  else if k == "hideEmptyEntryInSideDock" then { s with hideEmptyEntryInSideDock := v }
  else if k == "propertiesVisible" then { s with propertiesVisible := v }
  else if k == "propertyHideAll" then { s with propertyHideAll := v }
  else if k == "entries" then { s with entries := v }
  else s

/-- Object.assign(settings, imported) over all imported fields in order
(main.ts line 490). -/
def objAssign (s : RawSettings) (fields : List (String × JsonV)) : RawSettings :=
  fields.foldl (fun acc p => assignField acc p.1 p.2) s

/-- Default record merged under every imported entry (main.ts lines 492-494). -/
def entryDefaultFields : List (String × JsonV) :=
  [("isRegex", JsonV.bool false), ("folderFilter", JsonV.str ""), ("tagFilter", JsonV.str ""),
   ("action", JsonV.str "hide"), ("valueCondition", JsonV.str "")]

/-- Object.assign of the default record with one imported entry. A non-object
entry contributes no enumerable properties in this model (index properties of
string and array sources are not modelled; they play no part in the claims
settled here). -/
def fillEntryDefaults (e : JsonV) : JsonV :=
  match e with
  | JsonV.obj fs => JsonV.obj (objAssignFields entryDefaultFields fs)
  | _ => JsonV.obj entryDefaultFields

/-- The top-level shape test of the import handler (main.ts line 487): only a
plain object passes; null, arrays and primitives all raise. -/
def isObjectLike (v : JsonV) : Bool :=
  match v with
  | JsonV.obj _ => true
  | _ => false

/-- Outcome of a click on the Import button: the resulting in-memory settings
object, and on failure the one-line notice text. On failure the settings
carried are whatever the handler left in memory when the exception was
caught. -/
inductive ImportOutcome where
  | success (s : RawSettings)
  | failure (s : RawSettings) (msg : String)

/-- Translation of the Import button handler (ImportSettingsModal.onOpen,
main.ts lines 484-502). input = none models JSON.parse throwing on
unparseable text (the model uses a fixed SyntaxError message in place of the
engine-specific one). A non-object top level raises before any mutation. For
an object, Object.assign mutates the settings first and only then does the
entries map run, which raises a TypeError when the entries field is not an
array — after the mutation. -/
def importClick (settings : RawSettings) (input : Option JsonV) : ImportOutcome :=
  match input with
  | none => ImportOutcome.failure settings "Import failed: SyntaxError"
  | some v =>
    match v with
    | JsonV.obj fields =>
      let s1 := objAssign settings fields
      match s1.entries with
      | JsonV.arr es =>
        ImportOutcome.success { s1 with entries := JsonV.arr (es.map fillEntryDefaults) }
      | _ => ImportOutcome.failure s1 "Import failed: TypeError"
    | _ => ImportOutcome.failure settings "Import failed: Expected a JSON object"

/-- Lookup of one key in a plain JSON object. -/
def jGet (fields : List (String × JsonV)) (k : String) : Option JsonV :=
  (fields.find? (fun p => p.1 == k)).map (fun p => p.2)

/-- Reads the tableActive and tableInactive flags of the hide record of the
first stored entry after an import outcome. -/
def firstEntryHideFlags (r : ImportOutcome) : Option (Option JsonV × Option JsonV) :=
  match r with
  | ImportOutcome.success s =>
    match s.entries with
    | JsonV.arr (JsonV.obj fs :: _) =>
      match jGet fs "hide" with
      | some (JsonV.obj hs) => some (jGet hs "tableActive", jGet hs "tableInactive")
      | _ => none
    | _ => none
  | _ => none

/-!
Concrete inputs used by witnesses and counterexamples.
-/

/-- Oracle for rule lists without regex rules: every pattern found malformed.
Never consulted when no rule has isRegex set. -/
def oracle0 : RegexOracle := fun _ => none

/-- Oracle under which the pattern of one open parenthesis is malformed (the
RegExp constructor throws on it) and every other pattern compiles to a
matcher that accepts nothing. -/
def oracleBad : RegexOracle := fun p => if p == "(" then none else some (fun _ => false)

/-- Literal rule for the key status with no scopes and no value condition. -/
def ceMatch : entrySettings :=
  { name := "status", isRegex := false, folderFilter := "", tagFilter := "",
    action := EntryAction.hideAction, valueCondition := "",
    hide := { tableInactive := true, tableActive := false,
              fileProperties := false, allProperties := false } }

/-- Rule whose name alpha does not match the key status. -/
def ceA : entrySettings := { ceMatch with name := "alpha", valueCondition := "x" }

/-- Rule whose name beta does not match the key status. -/
def ceB : entrySettings := { ceMatch with name := "beta" }

/-- Regex rule with the malformed pattern of one open parenthesis. -/
def eBad : entrySettings := { ceMatch with name := "(", isRegex := true }

/-- Live-path rule (non-empty value condition) whose name does not match the
key status. -/
def eDom : entrySettings := { ceMatch with name := "other", valueCondition := "x" }

/-- Rule with the value condition of the value-insensitivity claim. -/
def e4cond : entrySettings := { ceMatch with valueCondition := "Cancelled, Done" }

/-- Rule with both a folder scope and a tag scope. -/
def eScope : entrySettings := { ceMatch with folderFilter := "Projects", tagFilter := "#work" }

/-- Document inside the Projects folder carrying the work tag. -/
def fBoth : FileCtx := { path := "Projects/a.md", tags := some ["#Work"] }

/-- Document inside the Projects folder without the work tag. -/
def fFolderOnly : FileCtx := { path := "Projects/a.md", tags := some ["#me"] }

/-- Well-typed settings value used by stylesheet witnesses. -/
def sPlain : MetadataHiderSettings :=
  { autoFold := false, hideEmptyEntry := true, hideEmptyEntryInSideDock := false,
    propertiesVisible := "tags, aliases", propertyHideAll := "hide",
    entries := [ceMatch] }

/-- Raw settings object holding default-shaped values, used by the import
claims. -/
def rsDefault : RawSettings :=
  { autoFold := JsonV.bool false, hideEmptyEntry := JsonV.bool true,
    hideEmptyEntryInSideDock := JsonV.bool false, propertiesVisible := JsonV.str "",
    propertyHideAll := JsonV.str "hide", entries := JsonV.arr [] }

/-- Imported object whose entries field is a number instead of an array. -/
def importBadEntries : JsonV := JsonV.obj [("entries", JsonV.num 5)]

/-- Imported object carrying one entry whose hide record has tableActive true
and tableInactive false. -/
def importBadHide : JsonV :=
  JsonV.obj [("entries",
    JsonV.arr [JsonV.obj [("name", JsonV.str "a"),
      ("hide", JsonV.obj [("tableInactive", JsonV.bool false), ("tableActive", JsonV.bool true),
        ("fileProperties", JsonV.bool false), ("allProperties", JsonV.bool false)])]])]

/-!
Helper lemmas about list search and the style element list. These are shared
infrastructure; no claim theorem appears in the proof of another.
-/

theorem find?_erase_mid {α : Type} (p : α → Bool) (l r : List α) (x : α)
    (hx : p x = false) : (l ++ x :: r).find? p = (l ++ r).find? p := by
  have hx' : ¬ p x := by simp [hx]
  simp [List.find?_append, List.find?_cons_of_neg _ hx']

theorem find?_eq_some_lowest {α : Type} (p : α → Bool) :
    ∀ (l : List α) (a : α), l.find? p = some a →
      ∃ i : Nat, l[i]? = some a ∧ p a = true ∧
        ∀ j : Nat, j < i → ∀ b : α, l[j]? = some b → p b = false := by
  intro l
  induction l with
  | nil => intro a h; simp [List.find?] at h
  | cons x t ih =>
    intro a h
    cases hx : p x with
    | true =>
      have hax : x = a := by
        have := List.find?_cons_of_pos (a := x) t hx
        rw [this] at h
        exact Option.some.inj h
      subst hax
      exact ⟨0, by simp, hx, by intro j hj; omega⟩
    | false =>
      have hx' : ¬ p x := by simp [hx]
      rw [List.find?_cons_of_neg _ hx'] at h
      obtain ⟨i, h1, h2, h3⟩ := ih a h
      refine ⟨i + 1, by simpa using h1, h2, ?_⟩
      intro j hj b hb
      cases j with
      | zero =>
        have : b = x := by simpa using hb.symm
        subst this; exact hx
      | succ k =>
        have hk : k < i := by omega
        exact h3 k hk b (by simpa using hb)

theorem find?_swap_nonmatching {α : Type} (p : α → Bool) (l1 l2 l3 : List α) (a b : α)
    (ha : p a = false) (hb : p b = false) :
    (l1 ++ a :: (l2 ++ b :: l3)).find? p = (l1 ++ b :: (l2 ++ a :: l3)).find? p := by
  rw [find?_erase_mid p l1 (l2 ++ b :: l3) a ha,
      find?_erase_mid p l1 (l2 ++ a :: l3) b hb,
      ← List.append_assoc, ← List.append_assoc,
      find?_erase_mid p (l1 ++ l2) l3 b hb,
      find?_erase_mid p (l1 ++ l2) l3 a ha]

/-!
Claim theorems.
-/

/-- C1: resolution is first-match-wins. For every ordered rule list, field key
and document context, a winner returned by the resolver sits at an index below
which no rule fully matches (so rules after the first full match never decide
the outcome), swapping two rules whose names do not match the key leaves the
result unchanged, and a fully matching rule moved to index 0 is the winner. -/
theorem C1_first_match_wins (oracle : RegexOracle) (key : String) (file : Option FileCtx)
    (fm : List (String × FmVal)) (propEl : Option String) :
    (∀ (entries : List entrySettings) (e : entrySettings),
      firstMatch oracle entries key file fm propEl = some e →
      ∃ i : Nat, entries[i]? = some e ∧ entryMatches oracle e key file fm propEl = true ∧
        ∀ j : Nat, j < i → ∀ b : entrySettings, entries[j]? = some b →
          entryMatches oracle b key file fm propEl = false) ∧
    (∀ (l1 l2 l3 : List entrySettings) (a b : entrySettings),
      matchesEntryName oracle key a = false → matchesEntryName oracle key b = false →
      firstMatch oracle (l1 ++ a :: (l2 ++ b :: l3)) key file fm propEl =
        firstMatch oracle (l1 ++ b :: (l2 ++ a :: l3)) key file fm propEl) ∧
    (∀ (e : entrySettings) (rest : List entrySettings),
      entryMatches oracle e key file fm propEl = true →
      firstMatch oracle (e :: rest) key file fm propEl = some e) := by
  refine ⟨?_, ?_, ?_⟩
  · intro entries e h
    exact find?_eq_some_lowest _ entries e (by simpa [firstMatch] using h)
  · intro l1 l2 l3 a b ha hb
    have ha' : entryMatches oracle a key file fm propEl = false := by
      simp [entryMatches, ha]
    have hb' : entryMatches oracle b key file fm propEl = false := by
      simp [entryMatches, hb]
    simpa [firstMatch] using
      find?_swap_nonmatching (fun e => entryMatches oracle e key file fm propEl)
        l1 l2 l3 a b ha' hb'
  · intro e rest h
    simp [firstMatch, List.find?_cons_of_pos, h]

/-- Witness for C1 at concrete inputs: a fully matching rule at index 0 wins,
and swapping the two non-matching rules around it leaves resolution
unchanged. -/
theorem C1_first_match_wins_witness :
    firstMatch oracle0 [ceMatch] "status" none [] none = some ceMatch ∧
    firstMatch oracle0 ([] ++ ceA :: ([] ++ ceB :: [ceMatch])) "status" none [] none =
      firstMatch oracle0 ([] ++ ceB :: ([] ++ ceA :: [ceMatch])) "status" none [] none :=
  ⟨(C1_first_match_wins oracle0 "status" none [] none).2.2 ceMatch [] (by decide),
   (C1_first_match_wins oracle0 "status" none [] none).2.1 [] [] [ceMatch] ceA ceB
     (by decide) (by decide)⟩

/-- C7: a rule whose pattern the regex engine rejects matches no key (fails
closed, the caught construction error never escaping), and removing such a
rule from any position of the list leaves resolution of every key unchanged,
so one bad pattern cannot break visibility resolution for the rest. -/
theorem C7_malformed_pattern_fails_closed (oracle : RegexOracle) (e : entrySettings)
    (hreg : e.isRegex = true) (hbad : oracle e.name = none) :
    (∀ key : String, matchesEntryName oracle key e = false) ∧
    (∀ (l1 l2 : List entrySettings) (key : String) (file : Option FileCtx)
        (fm : List (String × FmVal)) (propEl : Option String),
      firstMatch oracle (l1 ++ e :: l2) key file fm propEl =
        firstMatch oracle (l1 ++ l2) key file fm propEl) := by
  have hname : ∀ key, matchesEntryName oracle key e = false := by
    intro key; simp [matchesEntryName, hreg, hbad]
  refine ⟨hname, ?_⟩
  intro l1 l2 key file fm propEl
  have he : entryMatches oracle e key file fm propEl = false := by
    simp [entryMatches, hname key]
  simpa [firstMatch] using
    find?_erase_mid (fun x => entryMatches oracle x key file fm propEl) l1 l2 e he

/-- Witness for C7 at concrete inputs: the rule with pattern of one open
parenthesis matches nothing, and dropping it does not change resolution. -/
theorem C7_malformed_pattern_fails_closed_witness :
    matchesEntryName oracleBad "public" eBad = false ∧
    firstMatch oracleBad ([] ++ eBad :: [ceMatch]) "status" none [] none =
      firstMatch oracleBad ([] ++ [ceMatch]) "status" none [] none :=
  ⟨(C7_malformed_pattern_fails_closed oracleBad eBad rfl rfl).1 "public",
   (C7_malformed_pattern_fails_closed oracleBad eBad rfl rfl).2 [] [ceMatch]
     "status" none [] none⟩

/-- C5: scope applicability is a logical AND with a missing-context guard.
With any scope set and no open document the rule is inapplicable (false, not
an error); with both scopes empty it applies unconditionally; with both
scopes set it applies to a document exactly when both the folder check and
the tag check pass, so a document satisfying only one is rejected. -/
theorem C5_scope_and_semantics (e : entrySettings) :
    ((jsTrim e.folderFilter ≠ "" ∨ jsTrim e.tagFilter ≠ "") →
      isEntryApplicable e none = false) ∧
    (jsTrim e.folderFilter = "" → jsTrim e.tagFilter = "" →
      ∀ file : Option FileCtx, isEntryApplicable e file = true) ∧
    (jsTrim e.folderFilter ≠ "" → jsTrim e.tagFilter ≠ "" → ∀ f : FileCtx,
      isEntryApplicable e (some f) = (folderScopeOk e f && tagScopeOk e f)) := by
  refine ⟨?_, ?_, ?_⟩
  · intro h
    have hc : (jsTrim e.folderFilter == "" && jsTrim e.tagFilter == "") = false := by
      rcases h with h | h <;> simp [h]
    simp [isEntryApplicable, hc]
  · intro h1 h2 file
    simp [isEntryApplicable, h1, h2]
  · intro h1 h2 f
    cases hf : folderScopeOk e f <;> cases ht : tagScopeOk e f <;>
      simp [isEntryApplicable, h1, h2, hf, ht]

/-- Witness for C5 at concrete inputs: a scoped rule with no open document is
inapplicable; a scope-free rule always applies; a rule with folder and tag
scope applies to a document in the folder exactly when the tag check also
passes (and here the document lacks the tag, so it is rejected). -/
theorem C5_scope_and_semantics_witness :
    isEntryApplicable eScope none = false ∧
    isEntryApplicable ceMatch (some fBoth) = true ∧
    isEntryApplicable eScope (some fFolderOnly) =
      (folderScopeOk eScope fFolderOnly && tagScopeOk eScope fFolderOnly) :=
  ⟨(C5_scope_and_semantics eScope).1 (Or.inl (by decide)),
   (C5_scope_and_semantics ceMatch).2.1 (by decide) (by decide) (some fBoth),
   (C5_scope_and_semantics eScope).2.2 (by decide) (by decide) fFolderOnly⟩

/-- C4 (amended): value-condition matching with condition Cancelled, Done is
case-insensitive on both sides; condition terms are split on comma, trimmed
and lowercased; the live value is lowercased and trimmed, so the live value
DONE padded with spaces matches; the stored value is lowercased but not
trimmed, so stored cancelled and Done match, the stored padded DONE value
does not, and cancel never matches. -/
theorem C4_value_condition_insensitivity (e : entrySettings)
    (hc : e.valueCondition = "Cancelled, Done") :
    matchesValueCondition e "status"
      (buildFrontmatterLower (some [("status", FmRaw.scalar "cancelled")])) none = true ∧
    matchesValueCondition e "status" [] (some " DONE ") = true ∧
    matchesValueCondition e "status"
      (buildFrontmatterLower (some [("status", FmRaw.scalar "Done")])) none = true ∧
    matchesValueCondition e "status"
      (buildFrontmatterLower (some [("status", FmRaw.scalar " DONE ")])) none = false ∧
    matchesValueCondition e "status"
      (buildFrontmatterLower (some [("status", FmRaw.scalar "cancel")])) none = false := by
  refine ⟨?_, ?_, ?_, ?_, ?_⟩ <;>
    · simp only [matchesValueCondition, hc]
      decide

/-- Witness for C4 at the concrete rule carrying the condition. -/
theorem C4_value_condition_insensitivity_witness :
    matchesValueCondition e4cond "status"
      (buildFrontmatterLower (some [("status", FmRaw.scalar "cancelled")])) none = true ∧
    matchesValueCondition e4cond "status" [] (some " DONE ") = true ∧
    matchesValueCondition e4cond "status"
      (buildFrontmatterLower (some [("status", FmRaw.scalar "Done")])) none = true ∧
    matchesValueCondition e4cond "status"
      (buildFrontmatterLower (some [("status", FmRaw.scalar " DONE ")])) none = false ∧
    matchesValueCondition e4cond "status"
      (buildFrontmatterLower (some [("status", FmRaw.scalar "cancel")])) none = false :=
  C4_value_condition_insensitivity e4cond rfl

/-- Counterexample for C4 as stated: the claim requires the stored field value
DONE padded with spaces to match the condition Cancelled, Done, but the
stored value is lowercased without trimming, so it does not match. -/
theorem C4_counterexample :
    matchesValueCondition e4cond "status"
      (buildFrontmatterLower (some [("status", FmRaw.scalar " DONE ")])) none = false := by
  decide

/-- C6 (amended): the hide-target toggle handlers of the settings tab keep the
two table flags synchronized: setting the always-hide toggle forces
hide-when-inactive true, clearing the hide-when-inactive toggle forces
always-hide false, and every toggle mutation preserves the invariant that
always-hide implies hide-when-inactive. (The import path, by contrast,
performs no such synchronization; see the counterexample.) -/
theorem C6_hide_target_toggles (h : entryHideSettings) (key : HideKey) (value : Bool) :
    (setHideTarget h HideKey.tableActive true).tableInactive = true ∧
    (setHideTarget h HideKey.tableInactive false).tableActive = false ∧
    (hideInvariant h = true → hideInvariant (setHideTarget h key value) = true) := by
  refine ⟨by simp [setHideTarget], by simp [setHideTarget], ?_⟩
  intro hinv
  obtain ⟨ti, ta, fp, ap⟩ := h
  cases key <;> cases value <;> cases ti <;> cases ta <;>
    simp_all [setHideTarget, hideInvariant]

/-- Witness for C6 at a concrete hide record satisfying the invariant. -/
theorem C6_hide_target_toggles_witness :
    (setHideTarget ⟨true, false, false, false⟩ HideKey.tableActive true).tableInactive = true ∧
    (setHideTarget ⟨true, false, false, false⟩ HideKey.tableInactive false).tableActive = false ∧
    hideInvariant (setHideTarget ⟨true, false, false, false⟩ HideKey.tableActive true) = true :=
  ⟨(C6_hide_target_toggles ⟨true, false, false, false⟩ HideKey.tableActive true).1,
   (C6_hide_target_toggles ⟨true, false, false, false⟩ HideKey.tableActive true).2.1,
   (C6_hide_target_toggles ⟨true, false, false, false⟩ HideKey.tableActive true).2.2 (by decide)⟩

/-- Counterexample for C6 as stated: importing a configuration stores a rule
whose hide record has tableActive true while tableInactive is false, so a
rule in the stored rule list can end up with always-hide set and
hide-when-inactive clear — the import mutator performs no synchronization of
the two flags. -/
theorem C6_counterexample :
    firstEntryHideFlags (importClick rsDefault (some importBadHide)) =
      some (some (JsonV.bool true), some (JsonV.bool false)) := rfl

/-- C3 (amended): when the winning rule is a declarative-path rule (no regex,
empty value condition) the live reconciler clears both live markers on the
element, and in the all-fields panel an element with no matching rule has its
force-hidden marker cleared; but in the main reconciler NoMatch leaves the
element class state untouched, so a stale marker can persist there (see the
counterexample). -/
theorem C3_stale_marker_clearing (oracle : RegexOracle) (entries : List entrySettings)
    (key : String) (file : Option FileCtx) (fm : List (String × FmVal))
    (propEl : Option String) (inFileProps isActive : Bool) (st : PropClasses)
    (live : Option String) :
    (∀ e : entrySettings, firstMatch oracle entries key file fm propEl = some e →
      e.isRegex = false → jsTrim e.valueCondition = "" →
      applyCondStep oracle entries key file fm propEl inFileProps isActive st =
        { mhHide := false, mhShow := false }) ∧
    (firstMatch oracle entries key file fm none = none →
      hideInAllPropsStep oracle entries key file fm live st = { st with mhHide := false }) ∧
    (firstMatch oracle entries key file fm propEl = none →
      applyCondStep oracle entries key file fm propEl inFileProps isActive st = st) := by
  refine ⟨?_, ?_, ?_⟩
  · intro e h hreg hval
    simp [applyCondStep, h, hreg, hval]
  · intro h
    simp [hideInAllPropsStep, h]
  · intro h
    simp [applyCondStep, h]

/-- Witness for C3 at concrete inputs: a winning declarative-path rule clears
both markers, an unmatched all-fields item has its force-hidden marker
cleared, and an unmatched main-table element keeps its class state. -/
theorem C3_stale_marker_clearing_witness :
    applyCondStep oracle0 [ceMatch] "status" none [] none false false
      { mhHide := true, mhShow := true } = { mhHide := false, mhShow := false } ∧
    hideInAllPropsStep oracle0 [eDom] "status" none [] none
      { mhHide := true, mhShow := false } = { mhHide := false, mhShow := false } ∧
    applyCondStep oracle0 [eDom] "status" none [] none false false
      { mhHide := false, mhShow := true } = { mhHide := false, mhShow := true } :=
  ⟨(C3_stale_marker_clearing oracle0 [ceMatch] "status" none [] none false false
      { mhHide := true, mhShow := true } none).1 ceMatch (by decide) rfl (by decide),
   (C3_stale_marker_clearing oracle0 [eDom] "status" none [] none false false
      { mhHide := true, mhShow := false } none).2.1 (by decide),
   (C3_stale_marker_clearing oracle0 [eDom] "status" none [] none false false
      { mhHide := false, mhShow := true } none).2.2 (by decide)⟩

/-- Counterexample for C3 as stated: the rule list holds a live-path rule
(non-empty value condition, so the reconciler walks elements) that does not
match the key, resolution is NoMatch, and an element carrying a stale
force-hidden marker keeps it — the main reconciler clears nothing on
NoMatch. -/
theorem C3_counterexample :
    hasDomEntriesB [eDom] = true ∧
    firstMatch oracle0 [eDom] "status" none [] none = none ∧
    (applyCondStep oracle0 [eDom] "status" none [] none false false
      { mhHide := true, mhShow := false }).mhHide = true :=
  ⟨by decide, by decide, by decide⟩

/-- C10: the all-fields panel pass evaluates value conditions against the
stored frontmatter map only: its decision is unchanged under any in-progress
edit value (which the source never reads, passing null to the value matcher),
and it acts on the match resolved with no live-element override. -/
theorem C10_all_properties_ignores_live_edit (oracle : RegexOracle)
    (entries : List entrySettings) (key : String) (file : Option FileCtx)
    (fm : List (String × FmVal)) (l1 l2 : Option String) (st : PropClasses) :
    hideInAllPropsStep oracle entries key file fm l1 st =
      hideInAllPropsStep oracle entries key file fm l2 st ∧
    hideInAllPropsStep oracle entries key file fm l1 st =
      (match firstMatch oracle entries key file fm none with
        | none => { st with mhHide := false }
        | some e =>
          { st with mhHide := e.action == EntryAction.hideAction && e.hide.allProperties }) :=
  ⟨rfl, rfl⟩

/-- C8 (amended): the import aborts before any mutation — configuration
unchanged, one-line failure notice — for unparseable input and for any parsed
top-level value that is not a plain object (null, an array, or a primitive);
an object whose entries field is not an array also fails with a notice, but
only after the wholesale assignment has already mutated the in-memory
configuration (see the counterexample). -/
theorem C8_import_failure_atomicity (s : RawSettings) :
    importClick s none = ImportOutcome.failure s "Import failed: SyntaxError" ∧
    (∀ v : JsonV, isObjectLike v = false →
      importClick s (some v) =
        ImportOutcome.failure s "Import failed: Expected a JSON object") := by
  refine ⟨rfl, ?_⟩
  intro v hv
  cases v <;> simp_all [importClick, isObjectLike]

/-- Witness for C8 at concrete inputs: unparseable text and a top-level array
both abort with the settings unchanged. -/
theorem C8_import_failure_atomicity_witness :
    importClick rsDefault none = ImportOutcome.failure rsDefault "Import failed: SyntaxError" ∧
    importClick rsDefault (some (JsonV.arr [])) =
      ImportOutcome.failure rsDefault "Import failed: Expected a JSON object" :=
  ⟨(C8_import_failure_atomicity rsDefault).1,
   (C8_import_failure_atomicity rsDefault).2 (JsonV.arr []) rfl⟩

/-- Counterexample for C8 as stated: importing the object whose entries field
is the number five fails (the entries map raises after Object.assign) and the
user is notified, yet the in-memory configuration was already mutated — its
entries field is now that number instead of the original array, so this
failed import was not atomic. -/
theorem C8_counterexample :
    importClick rsDefault (some importBadEntries) =
      ImportOutcome.failure { rsDefault with entries := JsonV.num 5 }
        "Import failed: TypeError" ∧
    ({ rsDefault with entries := JsonV.num 5 } : RawSettings).entries ≠ rsDefault.entries :=
  ⟨rfl, fun hcontra => JsonV.noConfusion hcontra⟩

theorem countId_removeFirstById (head : List StyleEl) :
    countId (removeFirstById head) = countId head - 1 := by
  induction head with
  | nil => rfl
  | cons t ts ih =>
    cases h : (t.id == styleId) with
    | true =>
      simp [removeFirstById, countId, h, List.filter_cons] at ih ⊢
    | false =>
      simp [removeFirstById, countId, h, List.filter_cons] at ih ⊢
      exact ih

theorem countId_append (h1 h2 : List StyleEl) :
    countId (h1 ++ h2) = countId h1 + countId h2 := by
  simp [countId, List.filter_append]

theorem mem_of_mem_removeFirstById {x : StyleEl} :
    ∀ {head : List StyleEl}, x ∈ removeFirstById head → x ∈ head := by
  intro head
  induction head with
  | nil => simp [removeFirstById]
  | cons t ts ih =>
    cases h : (t.id == styleId) with
    | true =>
      intro hx
      simp only [removeFirstById, h, if_pos] at hx
      exact List.mem_cons_of_mem _ hx
    | false =>
      intro hx
      simp only [removeFirstById, h] at hx
      simp only [Bool.false_eq_true, if_false, List.mem_cons] at hx
      rcases hx with hx | hx
      · simp [hx]
      · exact List.mem_cons_of_mem _ (ih hx)

theorem removeByUid_of_fresh (uid : Nat) :
    ∀ (head : List StyleEl), (∀ t ∈ head, t.uid ≠ uid) → removeByUid uid head = head := by
  intro head
  induction head with
  | nil => intro _; rfl
  | cons t ts ih =>
    intro hf
    have ht : (t.uid == uid) = false := by
      simpa using hf t (List.mem_cons_self t ts)
    simp only [removeByUid, ht, Bool.false_eq_true, if_false, List.cons.injEq, true_and]
    exact ih (fun x hx => hf x (List.mem_cons_of_mem _ hx))

theorem removeByUid_append_last (uid : Nat) (t : StyleEl) (hu : t.uid = uid) :
    ∀ (head : List StyleEl), (∀ x ∈ head, x.uid ≠ uid) →
      removeByUid uid (head ++ [t]) = head := by
  intro head
  induction head with
  | nil =>
    intro _
    simp [removeByUid, hu]
  | cons x xs ih =>
    intro hf
    have hx : (x.uid == uid) = false := by
      simpa using hf x (List.mem_cons_self x xs)
    simp only [List.cons_append, removeByUid, hx, Bool.false_eq_true, if_false,
      List.cons.injEq, true_and]
    exact ih (fun y hy => hf y (List.mem_cons_of_mem _ hy))

theorem find?_styleId_none_of_countId_zero (head : List StyleEl)
    (h : countId head = 0) : head.find? (fun t => t.id == styleId) = none := by
  rw [List.find?_eq_none]
  intro x hx hpx
  have hmem : x ∈ head.filter (fun t => t.id == styleId) :=
    List.mem_filter.mpr ⟨hx, hpx⟩
  have hnil : head.filter (fun t => t.id == styleId) = [] := by
    simpa [countId, List.length_eq_zero] using h
  rw [hnil] at hmem
  exact absurd hmem (List.not_mem_nil x)

theorem countId_updateCSSHead (s : MetadataHiderSettings) (f : Option FileCtx)
    (uid : Nat) (head : List StyleEl) (h : countId head ≤ 1) :
    countId (updateCSSHead s f uid head) = 1 := by
  have h1 : countId (removeFirstById head) = 0 := by
    have := countId_removeFirstById head
    omega
  have h2 : countId [{ uid := uid, id := styleId, content := genAllCSS s f }] = 1 := by
    simp [countId, List.filter_cons]
  rw [updateCSSHead, countId_append, h1, h2]

theorem installedCSS_updateCSSHead (s : MetadataHiderSettings) (f : Option FileCtx)
    (uid : Nat) (head : List StyleEl) (h : countId head ≤ 1) :
    installedCSS (updateCSSHead s f uid head) = some (genAllCSS s f) := by
  have h0 : countId (removeFirstById head) = 0 := by
    have := countId_removeFirstById head
    omega
  rw [installedCSS, updateCSSHead, List.find?_append,
    find?_styleId_none_of_countId_zero _ h0]
  simp

/-- C2: the declarative stylesheet generator is a pure function of the
settings object and the document context — its output is genAllCSS of exactly
those inputs — so regenerating twice with no intervening state change
installs byte-identical output both times, independent of the prior head
state beyond replacement of the previous fragment. -/
theorem C2_regenerate_idempotent (s : MetadataHiderSettings) (f : Option FileCtx)
    (head : List StyleEl) (u1 u2 : Nat) (h : countId head ≤ 1) :
    installedCSS (updateCSSHead s f u1 head) = some (genAllCSS s f) ∧
    installedCSS (updateCSSHead s f u2 (updateCSSHead s f u1 head)) =
      some (genAllCSS s f) := by
  refine ⟨installedCSS_updateCSSHead s f u1 head h, ?_⟩
  have h1 : countId (updateCSSHead s f u1 head) ≤ 1 := by
    rw [countId_updateCSSHead s f u1 head h]
  exact installedCSS_updateCSSHead s f u2 _ h1

/-- Witness for C2 at a concrete settings value and an empty head: both
regenerations install the same genAllCSS output. -/
theorem C2_regenerate_idempotent_witness :
    installedCSS (updateCSSHead sPlain none 0 []) = some (genAllCSS sPlain none) ∧
    installedCSS (updateCSSHead sPlain none 1 (updateCSSHead sPlain none 0 [])) =
      some (genAllCSS sPlain none) :=
  C2_regenerate_idempotent sPlain none [] 0 1 (by decide)

/-- C9: the lifecycle coordinator maintains at most one installed style
fragment: regeneration over a head holding at most one plugin fragment
removes it before installing the new one and leaves exactly one; unloading
right after a regeneration (the created element having a fresh identity)
removes the plugin fragment entirely; and teardown with no recorded element,
or with an element no longer attached, leaves the head unchanged — absence is
a no-op, not an error. -/
theorem C9_single_style_fragment (s : MetadataHiderSettings) (f : Option FileCtx)
    (uid : Nat) (head : List StyleEl) :
    (countId head ≤ 1 → countId (updateCSSHead s f uid head) = 1) ∧
    (countId head ≤ 1 → (∀ t ∈ head, t.uid ≠ uid) →
      countId (onunloadHead (some uid) (updateCSSHead s f uid head)) = 0) ∧
    onunloadHead none head = head ∧
    ((∀ t ∈ head, t.uid ≠ uid) → onunloadHead (some uid) head = head) := by
  refine ⟨fun h => countId_updateCSSHead s f uid head h, ?_, rfl, ?_⟩
  · intro h hf
    have hf₂ : ∀ x ∈ removeFirstById head, x.uid ≠ uid := fun x hx =>
      hf x (mem_of_mem_removeFirstById hx)
    have heq : onunloadHead (some uid) (updateCSSHead s f uid head) =
        removeFirstById head := by
      simp only [onunloadHead, updateCSSHead]
      exact removeByUid_append_last uid _ rfl (removeFirstById head) hf₂
    rw [heq, countId_removeFirstById]
    omega
  · intro hf
    simp only [onunloadHead]
    exact removeByUid_of_fresh uid head hf

/-- Witness for C9 over the empty head: one fragment after regeneration, zero
after the following unload, and both teardown no-op cases. -/
theorem C9_single_style_fragment_witness :
    countId (updateCSSHead sPlain none 0 []) = 1 ∧
    countId (onunloadHead (some 0) (updateCSSHead sPlain none 0 [])) = 0 ∧
    onunloadHead none ([] : List StyleEl) = [] ∧
    onunloadHead (some 0) ([] : List StyleEl) = [] :=
  ⟨(C9_single_style_fragment sPlain none 0 []).1 (by decide),
   (C9_single_style_fragment sPlain none 0 []).2.1 (by decide) (by simp),
   (C9_single_style_fragment sPlain none 0 []).2.2.1,
   (C9_single_style_fragment sPlain none 0 []).2.2.2 (by simp)⟩

end MetadataHider
